import Mathlib

/-! Verification development for the subject-id resolution engine of
`hrtfdata/query.py`.  The Python data model and operations are embedded
shallowly: subject ids are `Nat`, side labels are `String`, fallible code
returns `Except String`, and the specification mapping is a two-level
association list mirroring the nested Python dict.
-/

/-! String helpers (Python `str.startswith` / `str.endswith` / comparison) -/

/-- Test whether the char list `s` begins with `pat` (helper for the Python
string predicates). -/
def charsLead : List Char → List Char → Bool
  | [], _ => true
  | _ :: _, [] => false
  | a :: as, b :: bs => a == b && charsLead as bs

/-- Python `s.startswith(pat)`. -/
def strStarts (s pat : String) : Bool := charsLead pat.data s.data

/-- Python `s.endswith(pat)`. -/
def strEnds (s pat : String) : Bool := charsLead pat.data.reverse s.data.reverse

/-- Python lexicographic `<` on strings, as a comparison of char lists
(code-point order, shorter strict prefixes first). -/
def charsLt : List Char → List Char → Bool
  | [], [] => false
  | [], _ :: _ => true
  | _ :: _, [] => false
  | a :: as, b :: bs =>
    if a.toNat < b.toNat then true
    else if b.toNat < a.toNat then false
    else charsLt as bs

/-- Python `a <= b` on strings. -/
def strLe (a b : String) : Prop := charsLt a.data b.data = true ∨ a.data = b.data

instance strLe.decRel : DecidableRel strLe := fun a b => by
  unfold strLe; infer_instance

/-- Python tuple comparison on `(id, sideLabel)` pairs. -/
def pairLe (a b : Nat × String) : Prop :=
  a.1 < b.1 ∨ (a.1 = b.1 ∧ strLe a.2 b.2)

instance pairLe.decRel : DecidableRel pairLe := fun a b => by
  unfold pairLe; infer_instance

/-! Python `sorted` -/

/-- Python `sorted` on a list of `(id, sideLabel)` tuples. -/
def sortPairs (l : List (Nat × String)) : List (Nat × String) :=
  List.insertionSort pairLe l

/-- Python `sorted` on a list of ids. -/
def sortNat (l : List Nat) : List Nat :=
  List.insertionSort (· ≤ ·) l

/-- Python `sorted` on a list of strings. -/
def sortStr (l : List String) : List String :=
  List.insertionSort strLe l

/-! Decidable equality for `Except` results -/

instance exceptDecEq {ε α : Type} [DecidableEq ε] [DecidableEq α] : DecidableEq (Except ε α) :=
  fun a b => by
    cases a with
    | ok x =>
      cases b with
      | ok y =>
        exact if h : x = y then Decidable.isTrue (by rw [h])
          else Decidable.isFalse (by intro hc; injection hc with h2; exact h h2)
      | error f => exact Decidable.isFalse (by intro hc; injection hc)
    | error e =>
      cases b with
      | ok y => exact Decidable.isFalse (by intro hc; injection hc)
      | error f =>
        exact if h : e = f then Decidable.isTrue (by rw [h])
          else Decidable.isFalse (by intro hc; injection hc with h2; exact h h2)

/-! Data model: the nested specification mapping (`spec` dict in `query.py`) -/

/-- A key of the Python specification dict: a string, or a numeric
per-subject override marker (exempt from the unknown-key check). -/
inductive PyKey where
  | kstr (s : String)
  | knum (n : Int)
deriving DecidableEq

/-- A value inside one block of the specification: the forms the core reads
(`side` strings, `rear`/`partial` booleans, `exclude` id collections,
`select` string collections); everything else is opaque pass-through. -/
inductive PyLeaf where
  | vstr (s : String)
  | vbool (b : Bool)
  | vids (l : List Nat)
  | vstrs (l : List String)
  | vother
deriving DecidableEq

/-- A root-level value of the specification dict: a nested block dict or a leaf. -/
inductive PyVal where
  | leaf (v : PyLeaf)
  | vdict (d : List (PyKey × PyLeaf))
deriving DecidableEq

/-- Python `spec[k]` lookup (root level). -/
def dictGet (d : List (PyKey × PyVal)) (k : String) : Option PyVal :=
  (d.find? (fun p => p.1 == PyKey.kstr k)).map (fun p => p.2)

/-! `DataQuery.validate_specification` -/

/-- The sorted non-numeric keys of `keys` outside `allowed`
(`sorted([x for x in set(keys).difference(allowed) if not isinstance(x, Number)])`). -/
def unknownKeysOf (keys : List PyKey) (allowed : List String) : List String :=
  sortStr (keys.dedup.filterMap (fun k =>
    match k with
    | PyKey.kstr s => if s ∈ allowed then Option.none else some s
    | PyKey.knum _ => Option.none))

/-- The `ValueError` message of `validate_dict`. -/
def mkUnknownMsg (unknown : List String) (key : String) : String :=
  "Unknown specifier" ++ (if 1 < unknown.length then "s" else "") ++ " \"" ++
    String.intercalate ", " unknown ++ "\" in " ++ (if key = "" then "specification" else key)

/-- The unknown-key check of `validate_dict` once the dict to check is at hand. -/
def checkKeys (keys : List PyKey) (allowed : List String) (key : String) : Except String Unit :=
  if unknownKeysOf keys allowed = [] then Except.ok ()
  else Except.error (mkUnknownMsg (unknownKeysOf keys allowed) key)

/-- Python `validate_dict(given_dict, allowed_keys, key)`: with `key = ""` checks the
root dict, otherwise checks the sub-dict at `key` (absent key: no check;
present non-dict value: Python fails on `.keys()`). -/
def validate_dict (spec : List (PyKey × PyVal)) (allowed : List String) (key : String) :
    Except String Unit :=
  if key = "" then checkKeys (spec.map (fun p => p.1)) allowed key
  else
    match dictGet spec key with
    | Option.none => Except.ok ()
    | some (PyVal.vdict d) => checkKeys (d.map (fun p => p.1)) allowed key
    | some (PyVal.leaf _) => Except.error "AttributeError: keys"

def hrirsAllowedKeys : List String :=
  ["side", "domain", "fundamental_angles", "orthogonal_angles", "scale_factor",
   "samplerate", "length", "min_phase", "exclude", "preprocess", "transform"]

def passthroughKeys : List String := ["preprocess", "transform"]

def imageAllowedKeys : List String := ["side", "rear", "preprocess", "transform"]

def anthropometryAllowedKeys : List String :=
  ["side", "select", "partial", "preprocess", "transform"]

/-- The seven `validate_dict` calls of `validate_specification`, in source
order: root (with the adapter's `allowed_keys`), then the fixed blocks. -/
def chkList (ak : List String) : List (String × List String) :=
  [("", ak), ("hrirs", hrirsAllowedKeys), ("subject", passthroughKeys),
   ("side", passthroughKeys), ("collection", passthroughKeys),
   ("image", imageAllowedKeys), ("anthropometry", anthropometryAllowedKeys)]

def goChecks (spec : List (PyKey × PyVal)) : List (String × List String) → Except String Unit
  | [] => Except.ok ()
  | c :: rest => do
    validate_dict spec c.2 c.1
    goChecks spec rest

/-- Embeds `DataQuery.validate_specification(spec)` for an adapter whose root
allowed-key list is `ak`. -/
def validate_specification (ak : List String) (spec : List (PyKey × PyVal)) :
    Except String Unit :=
  goChecks spec (chkList ak)

/-! `DataQuery._id_helper` (the side resolver) -/

/-- The `sides` label pair derived from the selector's suffix. -/
def sidesFor (side : String) : String × String :=
  if strEnds side "left" then ("left", "mirrored-right")
  else if strEnds side "right" then ("mirrored-left", "right")
  else ("left", "right")

/-- Python `sorted(set(left_ids).intersection(right_ids))`. -/
def bothQualifying (left_ids right_ids : List Nat) : List Nat :=
  sortNat ((left_ids.filter (fun i => decide (i ∈ right_ids))).dedup)

/-- The `ids` list built by `_id_helper` before the exclusion filter. -/
def idHelperRows (side : String) (id_fn : String → Except String (List Nat)) :
    Except String (List (Nat × String)) :=
  if strStarts side "both" || strStarts side "any" then do
    let left_ids ← id_fn "left"
    let right_ids ← id_fn "right"
    let sides := sidesFor side
    if strStarts side "both" then
      Except.ok ((bothQualifying left_ids right_ids).flatMap (fun i => [(i, sides.1), (i, sides.2)]))
    else
      Except.ok (sortPairs (left_ids.map (fun i => (i, sides.1)) ++
        right_ids.map (fun i => (i, sides.2))))
  else if side = "left" ∨ side = "right" then do
    let l ← id_fn side
    Except.ok (l.map (fun i => (i, side)))
  else Except.error ("Unknown side \"" ++ side ++ "\"")

/-- Embeds `DataQuery._id_helper(side, id_fn, exclude, default_exclude)`. -/
def id_helper (side : String) (id_fn : String → Except String (List Nat))
    (exclude : Option (List Nat)) (default_exclude : List Nat) :
    Except String (List (Nat × String)) := do
  let ids ← idHelperRows side id_fn
  Except.ok (ids.filter (fun p => decide (p.1 ∉ exclude.getD default_exclude)))

/-! The adapter (collection-specific collaborators of the core) -/

/-- One anthropometry measurement group's canonical matrix: side-independent
(`shared`) or stored per physical side (`sided`).  A matrix cell is `true`
when the measurement is present and `false` when it is missing (NaN). -/
inductive GroupData where
  | shared (m : List (List Bool))
  | sided (lm rm : List (List Bool))

/-- A collection adapter as the core sees it: the dynamic `allowed_keys`
root schema, the per-modality raw id enumerators (fallible, like the Python
methods), the loaded anthropometry store, and the default exclusion sets. -/
structure Adapter where
  allowed_keys : List String
  all_hrir_ids : String → Except String (List Nat)
  all_image_ids : String → Bool → Except String (List Nat)
  anthropometric_ids : List Nat
  anthropometry : List (String × GroupData)
  default_hrirs_exclude : List Nat
  default_images_exclude : List Nat
  default_anthropometry_exclude : List Nat

/-- Embeds `AnthropometryDataQuery.allowed_anthropometry_selection`. -/
def allowed_anthropometry_selection (ad : Adapter) : List String :=
  ad.anthropometry.map (fun p => p.1)

/-- The `select` argument: `None`, a single group name, or a name collection. -/
inductive SelectArg where
  | one (s : String)
  | many (l : List String)
deriving DecidableEq

def sqChar : Char := '\x27'

def pyQuote (s : String) : String := String.mk (sqChar :: (s.data ++ [sqChar]))

def pyReprList (l : List String) : String :=
  "[" ++ String.intercalate ", " (l.map pyQuote) ++ "]"

def pyReprTuple (l : List String) : String :=
  "(" ++ String.intercalate ", " (l.map pyQuote) ++ ")"

/-- Embeds `AnthropometryDataQuery._selection_validator`. -/
def selection_validator (ad : Adapter) (select : Option SelectArg) :
    Except String (List String) :=
  let sel := match select with
    | Option.none => allowed_anthropometry_selection ad
    | some (SelectArg.one s) => [s]
    | some (SelectArg.many l) => l
  let unknown := sortStr ((sel.filter
    (fun s => decide (s ∉ allowed_anthropometry_selection ad))).dedup)
  if unknown = [] then Except.ok sel
  else Except.error ("Unknown selection \"" ++ pyReprList unknown ++
    "\". Choose one or more from \"" ++ pyReprTuple (allowed_anthropometry_selection ad) ++ "\"")

def lookupGroup (ad : Adapter) (s : String) : Option GroupData :=
  (ad.anthropometry.find? (fun p => p.1 == s)).map (fun p => p.2)

/-- Python `side.split('mirrored-')[-1]` for the four valid side labels. -/
def stripMirrored (side : String) : String :=
  if strStarts side "mirrored-" then String.mk (side.data.drop 9) else side

/-- One element of the `column_stack` list comprehension:
`anth[s][real_side] if s.startswith('pinna') else anth[s]` (a store whose
shape does not match the `pinna` convention makes NumPy fail). -/
def resolveGroup (ad : Adapter) (real_side : String) (s : String) :
    Except String (List (List Bool)) :=
  match lookupGroup ad s with
  | Option.none => Except.error "KeyError"
  | some (GroupData.shared m) =>
    if strStarts s "pinna" then Except.error "TypeError: string index into matrix"
    else Except.ok m
  | some (GroupData.sided lm rm) =>
    if strStarts s "pinna" then Except.ok (if real_side = "left" then lm else rm)
    else Except.error "TypeError: matrix expected"

/-- NumPy `column_stack` on presence matrices with equal row counts:
row-wise concatenation of the columns. -/
def columnStack : List (List (List Bool)) → List (List Bool)
  | [] => []
  | [m] => m
  | m :: ms => List.zipWith (fun r1 r2 => r1 ++ r2) m (columnStack ms)

/-- Embeds `AnthropometryDataQuery._anthropometry_values` restricted to presence
information (every claim about the matrix is about NaN-ness only). -/
def anthropometry_values (ad : Adapter) (side : String) (select : Option SelectArg) :
    Except String (List (List Bool)) := do
  let sel ← selection_validator ad select
  if side ∈ ["left", "right", "mirrored-left", "mirrored-right"] then do
    let mats ← sel.mapM (resolveGroup ad (stripMirrored side))
    Except.ok (columnStack mats)
  else Except.error ("Unknown side selector \"" ++ side ++ "\"")

/-- NumPy boolean-mask indexing `ids[mask]` (mask length must match). -/
def maskSelect (ids : List Nat) (mask : List Bool) : Except String (List Nat) :=
  if ids.length = mask.length then
    Except.ok ((ids.zip mask).filterMap (fun q => if q.2 then some q.1 else Option.none))
  else Except.error "IndexError: boolean mask length mismatch"

/-- Embeds `AnthropometryDataQuery._all_anthropometry_ids(side, select, partial)`. -/
def all_anthropometry_ids (ad : Adapter) (side : String) (select : Option SelectArg)
    (partialFlag : Bool) : Except String (List Nat) := do
  let vals ← anthropometry_values ad side select
  let mask := vals.map (fun row =>
    if partialFlag then row.any (fun c => c) else row.all (fun c => c))
  maskSelect ad.anthropometric_ids mask

/-! The per-modality id methods -/

/-- Embeds `HrirDataQuery.hrir_ids`. -/
def hrir_ids (ad : Adapter) (side : String) (exclude : Option (List Nat)) :
    Except String (List (Nat × String)) :=
  id_helper side ad.all_hrir_ids exclude ad.default_hrirs_exclude

/-- Embeds `ImageDataQuery.image_ids`. -/
def image_ids (ad : Adapter) (side : String) (rear : Bool) (exclude : Option (List Nat)) :
    Except String (List (Nat × String)) :=
  id_helper side (fun s => ad.all_image_ids s rear) exclude ad.default_images_exclude

/-- Embeds `AnthropometryDataQuery.anthropometry_ids`. -/
def anthropometry_ids (ad : Adapter) (side : String) (select : Option SelectArg)
    (partialFlag : Bool) (exclude : Option (List Nat)) :
    Except String (List (Nat × String)) :=
  id_helper side (fun s => all_anthropometry_ids ad s select partialFlag)
    exclude ad.default_anthropometry_exclude

/-! `DataQuery.specification_based_ids` -/

def specGetBlock (spec : List (PyKey × PyVal)) (k : String) :
    Option (List (PyKey × PyLeaf)) :=
  match dictGet spec k with
  | some (PyVal.vdict d) => some d
  | _ => Option.none

def blockGet (b : List (PyKey × PyLeaf)) (k : String) : Option PyLeaf :=
  (b.find? (fun p => p.1 == PyKey.kstr k)).map (fun p => p.2)

def blockGetStr (b : List (PyKey × PyLeaf)) (k : String) : Option String :=
  match blockGet b k with
  | some (PyLeaf.vstr s) => some s
  | _ => Option.none

/-- Python truthiness of an optional block entry (`rear`, `partial`). -/
def blockTruthy (b : List (PyKey × PyLeaf)) (k : String) : Bool :=
  match blockGet b k with
  | some (PyLeaf.vbool v) => v
  | _ => false

def blockGetIds (b : List (PyKey × PyLeaf)) (k : String) : Option (List Nat) :=
  match blockGet b k with
  | some (PyLeaf.vids l) => some l
  | _ => Option.none

def blockGetSelect (b : List (PyKey × PyLeaf)) (k : String) : Option SelectArg :=
  match blockGet b k with
  | some (PyLeaf.vstr s) => some (SelectArg.one s)
  | some (PyLeaf.vstrs l) => some (SelectArg.many l)
  | _ => Option.none

/-- The `include_subjects` argument: `None` or one of the recognised values. -/
inductive IncMode where
  | first
  | last
  | random
  | coll (l : List Nat)
deriving DecidableEq

/-- Python `include_subjects is not None and len(include_subjects) == 0`. -/
def lenZeroInclude : Option IncMode → Bool
  | some (IncMode.coll []) => true
  | _ => false

/-- The inclusion-policy tail of `specification_based_ids`; `rng` is the
injected random index modelling `random.choice`. -/
def applyInclude (rng : Nat) (ids : List (Nat × String)) :
    Option IncMode → Except String (List (Nat × String))
  | Option.none => Except.ok ids
  | some m =>
    if 0 < ids.length ∧ m = IncMode.first then Except.ok (ids.take 1)
    else if 0 < ids.length ∧ m = IncMode.last then Except.ok (ids.drop (ids.length - 1))
    else if 0 < ids.length ∧ m = IncMode.random then
      Except.ok ((ids.drop (rng % ids.length)).take 1)
    else
      match m with
      | IncMode.coll c => Except.ok (ids.filter (fun p => decide (p.1 ∈ c)))
      | _ => Except.ok []

def hasKey (spec : List (PyKey × PyVal)) (k : String) : Bool :=
  (dictGet spec k).isSome

/-- Python `specification[k].get('exclude', exclude_subjects)`: the block's own
exclusion override if present, else the caller's. -/
def modalityExclude (b : List (PyKey × PyLeaf)) (excl : Option (List Nat)) :
    Option (List Nat) :=
  match blockGetIds b "exclude" with
  | some e => some e
  | Option.none => excl

/-- The `separate_ids` accumulation: each present modality block (in source
order `image`, `anthropometry`, `hrirs`) contributes `set(<modality>_ids(...))`. -/
def collectSeparate (ad : Adapter) (spec : List (PyKey × PyVal)) (default_side : String)
    (excl : Option (List Nat)) : Except String (List (List (Nat × String))) := do
  let imgPart ←
    if hasKey spec "image" then do
      let b := (specGetBlock spec "image").getD []
      let r ← image_ids ad ((blockGetStr b "side").getD default_side)
        (blockTruthy b "rear") (modalityExclude b excl)
      Except.ok [r.dedup]
    else Except.ok []
  let anthPart ←
    if hasKey spec "anthropometry" then do
      let b := (specGetBlock spec "anthropometry").getD []
      let r ← anthropometry_ids ad ((blockGetStr b "side").getD default_side)
        (blockGetSelect b "select") (blockTruthy b "partial") (modalityExclude b excl)
      Except.ok [r.dedup]
    else Except.ok []
  let hrirPart ←
    if hasKey spec "hrirs" then do
      let b := (specGetBlock spec "hrirs").getD []
      let r ← hrir_ids ad ((blockGetStr b "side").getD default_side) (modalityExclude b excl)
      Except.ok [r.dedup]
    else Except.ok []
  Except.ok (imgPart ++ anthPart ++ hrirPart)

/-- Python `set.intersection(*separate_ids)`: a `TypeError` on an empty argument
list, else the pairwise intersection. -/
def intersectAll : List (List (Nat × String)) → Except String (List (Nat × String))
  | [] => Except.error "TypeError: set.intersection needs at least one set"
  | s :: rest => Except.ok (rest.foldl (fun acc t => acc.filter (fun p => decide (p ∈ t))) s)

/-- The `default_side` computation of `specification_based_ids`: the `side`
of the first block (in `hrirs`, `image`, `anthropometry` order) that
specifies one, else `"any"`. -/
def defaultSideOf (spec : List (PyKey × PyVal)) : String :=
  (["hrirs", "image", "anthropometry"].filterMap
    (fun k => (specGetBlock spec k).bind (fun b => blockGetStr b "side"))).headD "any"

/-- Embeds `DataQuery.specification_based_ids(specification, include_subjects,
exclude_subjects)`; `rng` is the injected random index. -/
def specification_based_ids (ad : Adapter) (spec : List (PyKey × PyVal))
    (include_subjects : Option IncMode) (exclude_subjects : Option (List Nat)) (rng : Nat) :
    Except String (List (Nat × String)) := do
  validate_specification ad.allowed_keys spec
  if lenZeroInclude include_subjects then Except.ok []
  else do
    let separate ← collectSeparate ad spec (defaultSideOf spec) exclude_subjects
    let inter ← intersectAll separate
    applyInclude rng (sortPairs inter) include_subjects

/-! C4: the side-selector grammar actually enforced -/

/-- The eight-value side-selector grammar as worded in the specification
(`{left,right} | {both,any}[-{left,right}]`); stated only to compare the
spec's wording with the implementation. -/
def sideSelectorGrammar : List String :=
  ["left", "right", "both", "any", "both-left", "both-right", "any-left", "any-right"]

/-! C5: the specification validator -/

/-- The fixed root allowed-key set as worded in the specification; stated
only to compare the spec's wording with the implementation (whose root
set is the adapter's dynamic `allowed_keys`). -/
def specFixedRootKeys : List String :=
  ["subject", "side", "collection", "hrirs", "image", "anthropometry"]

/-- The six sub-dict keys `validate_specification` inspects. -/
def blockDictKeys : List String :=
  ["hrirs", "subject", "side", "collection", "image", "anthropometry"]

/-- Well-formedness of a specification: every inspected block key that is
present maps to a dict (Python otherwise dies on `.keys()` of a non-dict). -/
def blocksWF (spec : List (PyKey × PyVal)) : Prop :=
  ∀ k ∈ blockDictKeys, ∀ v, dictGet spec k = some v → ∃ d, v = PyVal.vdict d

/-- The offending keys `validate_dict` would report at one location. -/
def unknownAt (spec : List (PyKey × PyVal)) (key : String) (allowed : List String) :
    List String :=
  if key = "" then unknownKeysOf (spec.map (fun p => p.1)) allowed
  else
    match dictGet spec key with
    | some (PyVal.vdict d) => unknownKeysOf (d.map (fun p => p.1)) allowed
    | _ => []

/-! Concrete adapters and specifications used as instances -/

/-- An adapter whose anthropometry store holds one shared group over raw
ids `[1, 2]`, with subject 2's measurement missing. -/
def anthAd : Adapter where
  allowed_keys := ["subject", "side", "collection", "anthropometry"]
  all_hrir_ids := fun _ => Except.ok []
  all_image_ids := fun _ _ => Except.ok []
  anthropometric_ids := [1, 2]
  anthropometry := [("weight", GroupData.shared [[true], [false]])]
  default_hrirs_exclude := []
  default_images_exclude := []
  default_anthropometry_exclude := []

/-- An adapter whose image enumerator reports its own invocation. -/
def trapAd : Adapter where
  allowed_keys := ["subject", "side", "collection", "image", "hrirs"]
  all_hrir_ids := fun _ => Except.ok []
  all_image_ids := fun _ _ => Except.error "image collaborator invoked"
  anthropometric_ids := []
  anthropometry := []
  default_hrirs_exclude := []
  default_images_exclude := []
  default_anthropometry_exclude := []

/-- The same adapter with a benign image enumerator. -/
def benignAd : Adapter where
  allowed_keys := ["subject", "side", "collection", "image", "hrirs"]
  all_hrir_ids := fun _ => Except.ok []
  all_image_ids := fun _ _ => Except.ok []
  anthropometric_ids := []
  anthropometry := []
  default_hrirs_exclude := []
  default_images_exclude := []
  default_anthropometry_exclude := []

/-- A specification with a valid `image` block and an `hrirs` block whose
side selector token `"up"` is unknown. -/
def spec9 : List (PyKey × PyVal) :=
  [(PyKey.kstr "image", PyVal.vdict [(PyKey.kstr "side", PyLeaf.vstr "left")]),
   (PyKey.kstr "hrirs", PyVal.vdict [(PyKey.kstr "side", PyLeaf.vstr "up")])]

/-- An adapter with an `hrirs` modality enumerating ids `[1, 2]`. -/
def smallAd : Adapter where
  allowed_keys := ["subject", "side", "collection", "hrirs"]
  all_hrir_ids := fun _ => Except.ok [1, 2]
  all_image_ids := fun _ _ => Except.ok []
  anthropometric_ids := []
  anthropometry := []
  default_hrirs_exclude := []
  default_images_exclude := []
  default_anthropometry_exclude := []

/-- A specification requesting only the `hrirs` modality on the left side. -/
def spec6 : List (PyKey × PyVal) :=
  [(PyKey.kstr "hrirs", PyVal.vdict [(PyKey.kstr "side", PyLeaf.vstr "left")])]

/-! Theorems about the embedded operations. -/

theorem charsLt_cons (x y : Char) (xs ys : List Char) :
    charsLt (x :: xs) (y :: ys) = true ↔
      (x.toNat < y.toNat ∨ (x.toNat = y.toNat ∧ charsLt xs ys = true)) := by
  simp only [charsLt]
  split_ifs with h1 h2
  · simp [h1]
  · constructor
    · intro h; simp at h
    · rintro (h | ⟨h, _⟩) <;> omega
  · constructor
    · intro h; right; exact ⟨by omega, h⟩
    · rintro (h | ⟨_, hlt⟩)
      · omega
      · exact hlt

theorem charsLt_trans {a b c : List Char}
    (hab : charsLt a b = true) (hbc : charsLt b c = true) : charsLt a c = true := by
  induction a generalizing b c with
  | nil =>
    cases b with
    | nil => simp [charsLt] at hab
    | cons y ys =>
      cases c with
      | nil => simp [charsLt] at hbc
      | cons z zs => rfl
  | cons x xs ih =>
    cases b with
    | nil => simp [charsLt] at hab
    | cons y ys =>
      cases c with
      | nil => simp [charsLt] at hbc
      | cons z zs =>
        rw [charsLt_cons] at hab hbc ⊢
        rcases hab with hab | ⟨hab, tab⟩
        · rcases hbc with hbc | ⟨hbc, _⟩
          · left; omega
          · left; omega
        · rcases hbc with hbc | ⟨hbc, tbc⟩
          · left; omega
          · right; exact ⟨by omega, ih tab tbc⟩

theorem char_eq_of_toNat_eq {x y : Char} (h : x.toNat = y.toNat) : x = y := by
  apply Char.ext
  apply UInt32.ext
  simpa [Char.toNat, UInt32.toNat] using h

theorem charsLt_total (a b : List Char) :
    charsLt a b = true ∨ charsLt b a = true ∨ a = b := by
  induction a generalizing b with
  | nil =>
    cases b with
    | nil => right; right; rfl
    | cons y ys => left; rfl
  | cons x xs ih =>
    cases b with
    | nil => right; left; rfl
    | cons y ys =>
      by_cases hxy : x.toNat < y.toNat
      · left; rw [charsLt_cons]; left; exact hxy
      · by_cases hyx : y.toNat < x.toNat
        · right; left; rw [charsLt_cons]; left; exact hyx
        · have hx : x = y := char_eq_of_toNat_eq (by omega)
          subst hx
          rcases ih ys with h | h | h
          · left; rw [charsLt_cons]; right; exact ⟨rfl, h⟩
          · right; left; rw [charsLt_cons]; right; exact ⟨rfl, h⟩
          · right; right; rw [h]

theorem strLe_total (a b : String) : strLe a b ∨ strLe b a := by
  rcases charsLt_total a.data b.data with h | h | h
  · left; exact Or.inl h
  · right; exact Or.inl h
  · left; exact Or.inr h

theorem strLe_trans {a b c : String} (hab : strLe a b) (hbc : strLe b c) : strLe a c := by
  rcases hab with hab | hab
  · rcases hbc with hbc | hbc
    · exact Or.inl (charsLt_trans hab hbc)
    · exact Or.inl (hbc ▸ hab)
  · rcases hbc with hbc | hbc
    · exact Or.inl (hab ▸ hbc)
    · exact Or.inr (hab.trans hbc)

theorem pairLe_total (a b : Nat × String) : pairLe a b ∨ pairLe b a := by
  rcases Nat.lt_trichotomy a.1 b.1 with h | h | h
  · exact Or.inl (Or.inl h)
  · rcases strLe_total a.2 b.2 with hs | hs
    · exact Or.inl (Or.inr ⟨h, hs⟩)
    · exact Or.inr (Or.inr ⟨h.symm, hs⟩)
  · exact Or.inr (Or.inl h)

theorem pairLe_trans (a b c : Nat × String) (hab : pairLe a b) (hbc : pairLe b c) :
    pairLe a c := by
  rcases hab with hab | ⟨hab, sab⟩
  · rcases hbc with hbc | ⟨hbc, _⟩
    · exact Or.inl (hab.trans hbc)
    · exact Or.inl (hbc ▸ hab)
  · rcases hbc with hbc | ⟨hbc, sbc⟩
    · exact Or.inl (hab ▸ hbc)
    · exact Or.inr ⟨hab.trans hbc, strLe_trans sab sbc⟩

theorem sortPairs_sorted (l : List (Nat × String)) : List.Sorted pairLe (sortPairs l) :=
  @List.sorted_insertionSort _ pairLe pairLe.decRel ⟨pairLe_total⟩ ⟨pairLe_trans⟩ l

theorem sortPairs_perm (l : List (Nat × String)) : (sortPairs l).Perm l :=
  List.perm_insertionSort pairLe l

theorem sortNat_sorted (l : List Nat) : List.Sorted (· ≤ ·) (sortNat l) :=
  List.sorted_insertionSort _ l

theorem sortNat_perm (l : List Nat) : (sortNat l).Perm l :=
  List.perm_insertionSort _ l

/-! Generic lemmas about `Except` sequencing -/

@[simp]
theorem okBind {α β : Type} (a : α) (f : α → Except String β) :
    (Except.ok a >>= f) = f a := rfl

@[simp]
theorem errBind {α β : Type} (e : String) (f : α → Except String β) :
    ((Except.error e : Except String α) >>= f) = Except.error e := rfl

theorem bind_ok_inv {α β : Type} {x : Except String α} {f : α → Except String β} {b : β}
    (h : (x >>= f) = Except.ok b) : ∃ a, x = Except.ok a ∧ f a = Except.ok b := by
  cases x with
  | ok a => exact ⟨a, rfl, h⟩
  | error e => rw [errBind] at h; exact Except.noConfusion h

/-- C4 (counterexample): `_id_helper` accepts the selector `"bothfoo"`,
which is outside the spec's eight-value grammar, and treats it like
`both` instead of raising an unknown-side error. -/
theorem c4_counterexample :
    id_helper "bothfoo" (fun _ => Except.ok []) Option.none [] = Except.ok [] ∧
    "bothfoo" ∉ sideSelectorGrammar := by
  exact ⟨by decide, by decide⟩

/-- C4 (amended): for a total enumerator, `_id_helper` raises an error iff
the selector neither starts with `both`, nor starts with `any`, nor equals
`left` or `right`; when it raises, the message is `Unknown side "<side>"`. -/
theorem c4_unknown_side (side : String) (enum : String → List Nat)
    (excl : Option (List Nat)) (dflt : List Nat) :
    ((∃ m, id_helper side (fun s => Except.ok (enum s)) excl dflt = Except.error m) ↔
      (strStarts side "both" = false ∧ strStarts side "any" = false ∧
        side ≠ "left" ∧ side ≠ "right")) ∧
    (∀ m, id_helper side (fun s => Except.ok (enum s)) excl dflt = Except.error m →
      m = "Unknown side \"" ++ side ++ "\"") := by
  by_cases hb : strStarts side "both" = true
  · constructor
    · simp [id_helper, idHelperRows, hb]
    · simp [id_helper, idHelperRows, hb]
  · rw [Bool.not_eq_true] at hb
    by_cases ha : strStarts side "any" = true
    · constructor
      · simp [id_helper, idHelperRows, hb, ha]
      · simp [id_helper, idHelperRows, hb, ha]
    · rw [Bool.not_eq_true] at ha
      by_cases hl : side = "left"
      · subst hl
        constructor
        · simp [id_helper, idHelperRows, hb, ha]
        · simp [id_helper, idHelperRows, hb, ha]
      · by_cases hr : side = "right"
        · subst hr
          constructor
          · simp [id_helper, idHelperRows, hb, ha]
          · simp [id_helper, idHelperRows, hb, ha]
        · constructor
          · simp [id_helper, idHelperRows, hb, ha, hl, hr]
          · intro m hm
            simp [id_helper, idHelperRows, hb, ha, hl, hr] at hm
            exact hm.symm

/-! C7: exclusion semantics of `_id_helper` -/

/-- C7: a row is dropped by `_id_helper` exactly when its id is in the
exclusion override if one is provided, else in the default exclusion set;
an explicit override (including an explicit empty one) fully replaces the
default and is never unioned with it. -/
theorem c7_exclusion (side : String) (id_fn : String → Except String (List Nat))
    (rows : List (Nat × String))
    (h : idHelperRows side id_fn = Except.ok rows) :
    (∀ (excl : Option (List Nat)) (d : List Nat), id_helper side id_fn excl d
        = Except.ok (rows.filter (fun p => decide (p.1 ∉ excl.getD d)))) ∧
    (∀ (excl : Option (List Nat)) (d : List Nat) (p : Nat × String), p ∈ rows →
      (p ∈ rows.filter (fun q => decide (q.1 ∉ excl.getD d)) ↔ p.1 ∉ excl.getD d)) ∧
    (∀ (e d d2 : List Nat), id_helper side id_fn (some e) d = id_helper side id_fn (some e) d2) ∧
    (∀ (d : List Nat), id_helper side id_fn (some []) d = Except.ok rows) := by
  refine ⟨?_, ?_, ?_, ?_⟩
  · intro excl d
    simp [id_helper, h]
  · intro excl d p hp
    simp [List.mem_filter, hp]
  · intro e d d2
    simp [id_helper, h]
  · intro d
    simp only [id_helper, h, okBind, Option.getD_some]
    congr 1
    apply List.filter_eq_self.mpr
    intro p _
    simp

/-- C7 witness: with the `left` selector over enumerated ids `[1, 2]`, the
override `[1]` replaces the default `[2]`, keeping exactly id `2`. -/
theorem c7_exclusion_witness :
    id_helper "left" (fun _ => Except.ok [1, 2]) (some [1]) [2]
      = Except.ok [(2, "left")] := by
  have h := c7_exclusion "left" (fun _ => Except.ok [1, 2]) [(1, "left"), (2, "left")] (by decide)
  rw [h.1 (some [1]) [2]]
  decide

/-! C1: the `both` prefix resolution -/

theorem idHelperRows_both (side : String) (hb : strStarts side "both" = true)
    (eL eR : List Nat) :
    idHelperRows side (fun s => Except.ok (if s = "left" then eL else eR))
      = Except.ok ((bothQualifying eL eR).flatMap
          (fun i => [(i, (sidesFor side).1), (i, (sidesFor side).2)])) := by
  simp [idHelperRows, hb]

theorem filter_flatMap_two (l : List Nat) (s1 s2 : String) (E : List Nat) :
    ((l.flatMap (fun i => [(i, s1), (i, s2)])).filter (fun p => decide (p.1 ∉ E)))
      = (l.filter (fun i => decide (i ∉ E))).flatMap (fun i => [(i, s1), (i, s2)]) := by
  induction l with
  | nil => rfl
  | cons x xs ih =>
    simp only [decide_not] at ih ⊢
    by_cases h : x ∈ E
    · simp [List.flatMap_cons, List.filter_append, List.filter_cons, h, ih]
    · simp [List.flatMap_cons, List.filter_append, List.filter_cons, h, ih]

theorem length_flatMap_two (l : List Nat) (s1 s2 : String) :
    (l.flatMap (fun i => [(i, s1), (i, s2)])).length = 2 * l.length := by
  induction l with
  | nil => rfl
  | cons x xs ih =>
    simp only [List.flatMap_cons, List.length_append, List.length_cons, ih]
    simp
    omega

theorem mem_bothQualifying (eL eR : List Nat) (i : Nat) :
    i ∈ bothQualifying eL eR ↔ i ∈ eL ∧ i ∈ eR := by
  unfold bothQualifying
  rw [(sortNat_perm _).mem_iff]
  simp [List.mem_dedup, List.mem_filter]

theorem nodup_bothQualifying (eL eR : List Nat) : (bothQualifying eL eR).Nodup := by
  unfold bothQualifying
  exact (sortNat_perm _).nodup_iff.mpr (List.nodup_dedup _)

theorem filter_fst_flatMap_not_mem (l : List Nat) (s1 s2 : String) (i : Nat) (hi : i ∉ l) :
    (l.flatMap (fun j => [(j, s1), (j, s2)])).filter (fun p => p.1 == i) = [] := by
  induction l with
  | nil => rfl
  | cons x xs ih =>
    have hx : ¬(x = i) := fun h => hi (h ▸ List.mem_cons_self x xs)
    simp only [List.flatMap_cons, List.filter_append, List.filter_cons]
    simp [hx, ih (fun h => hi (List.mem_cons_of_mem _ h))]

theorem filter_fst_flatMap_mem (l : List Nat) (hnd : l.Nodup) (s1 s2 : String) (i : Nat)
    (hi : i ∈ l) :
    (l.flatMap (fun j => [(j, s1), (j, s2)])).filter (fun p => p.1 == i)
      = [(i, s1), (i, s2)] := by
  induction l with
  | nil => cases hi
  | cons x xs ih =>
    rcases List.mem_cons.mp hi with h | h
    · subst h
      have hx : i ∉ xs := (List.nodup_cons.mp hnd).1
      rw [List.flatMap_cons, List.filter_append, filter_fst_flatMap_not_mem xs s1 s2 i hx]
      simp [List.filter_cons]
    · have hx : ¬(x = i) := by
        intro he
        subst he
        exact (List.nodup_cons.mp hnd).1 h
      rw [List.flatMap_cons, List.filter_append, ih (List.nodup_cons.mp hnd).2 h]
      simp [List.filter_cons, hx]

/-- C1: for every `both`-prefixed side selector, the qualifying ids are
exactly the intersection of the left- and right-enumerated id sets, each
qualifying id outside the active exclusion set contributes exactly two
rows (one per derived label, both labels attached together), the result
length is `2 ×` the number of exclusion-filtered qualifying ids, and
Example 1 of the spec holds. -/
theorem c1_both_resolution (side : String) (hb : strStarts side "both" = true)
    (eL eR : List Nat) (excl : Option (List Nat)) (dflt : List Nat) :
    ∃ l, id_helper side (fun s => Except.ok (if s = "left" then eL else eR)) excl dflt
        = Except.ok l ∧
      l = ((bothQualifying eL eR).filter (fun i => decide (i ∉ excl.getD dflt))).flatMap
            (fun i => [(i, (sidesFor side).1), (i, (sidesFor side).2)]) ∧
      (∀ i, i ∈ bothQualifying eL eR ↔ i ∈ eL ∧ i ∈ eR) ∧
      l.length = 2 * ((bothQualifying eL eR).filter
          (fun i => decide (i ∉ excl.getD dflt))).length ∧
      (∀ i, i ∈ bothQualifying eL eR → i ∉ excl.getD dflt →
        l.filter (fun p => p.1 == i) = [(i, (sidesFor side).1), (i, (sidesFor side).2)]) ∧
      id_helper "both" (fun s => Except.ok (if s = "left" then [1, 2, 3] else [2, 3, 4]))
          Option.none []
        = Except.ok [(2, "left"), (2, "right"), (3, "left"), (3, "right")] := by
  have hrows := idHelperRows_both side hb eL eR
  have hmain : id_helper side (fun s => Except.ok (if s = "left" then eL else eR)) excl dflt
      = Except.ok (((bothQualifying eL eR).filter
          (fun i => decide (i ∉ excl.getD dflt))).flatMap
            (fun i => [(i, (sidesFor side).1), (i, (sidesFor side).2)])) := by
    simp only [id_helper, hrows, okBind]
    rw [filter_flatMap_two]
  refine ⟨_, hmain, rfl, mem_bothQualifying eL eR, ?_, ?_, by decide⟩
  · exact length_flatMap_two _ _ _
  · intro i hq hni
    apply filter_fst_flatMap_mem
    · exact (nodup_bothQualifying eL eR).filter _
    · exact List.mem_filter.mpr ⟨hq, by simpa using hni⟩

/-- C1 witness: Example 1 of the spec, derived from `c1_both_resolution`. -/
theorem c1_both_resolution_witness :
    id_helper "both" (fun s => Except.ok (if s = "left" then [1, 2, 3] else [2, 3, 4]))
        Option.none []
      = Except.ok [(2, "left"), (2, "right"), (3, "left"), (3, "right")] := by
  obtain ⟨l, h1, h2, h3, h4, h5, h6⟩ :=
    c1_both_resolution "both" (by decide) [1, 2, 3] [2, 3, 4] Option.none []
  exact h6

/-! C2: the `any` prefix resolution -/

theorem charsLead_head {a b : Char} {pa pb : List Char} {s : List Char}
    (h1 : charsLead (a :: pa) s = true) (h2 : charsLead (b :: pb) s = true) : a = b := by
  cases s with
  | nil => simp [charsLead] at h1
  | cons c cs =>
    simp [charsLead] at h1 h2
    exact h1.1.trans h2.1.symm

theorem strStarts_any_not_both {side : String} (ha : strStarts side "any" = true) :
    strStarts side "both" = false := by
  by_contra hb
  rw [Bool.not_eq_false] at hb
  unfold strStarts at ha hb
  rw [show "any".data = 'a' :: ['n', 'y'] from rfl] at ha
  rw [show "both".data = 'b' :: ['o', 't', 'h'] from rfl] at hb
  exact absurd (charsLead_head ha hb) (by decide)

theorem idHelperRows_any (side : String) (ha : strStarts side "any" = true)
    (eL eR : List Nat) :
    idHelperRows side (fun s => Except.ok (if s = "left" then eL else eR))
      = Except.ok (sortPairs (eL.map (fun i => (i, (sidesFor side).1)) ++
          eR.map (fun i => (i, (sidesFor side).2)))) := by
  have hb := strStarts_any_not_both ha
  simp [idHelperRows, ha, hb]

theorem sidesFor_ne (side : String) : (sidesFor side).1 ≠ (sidesFor side).2 := by
  unfold sidesFor
  split_ifs <;> decide

theorem count_pair_map_same (l : List Nat) (s : String) (i : Nat) :
    (l.map (fun j => (j, s))).count (i, s) = l.count i := by
  induction l with
  | nil => rfl
  | cons x xs ih =>
    by_cases h : x = i
    · subst h
      simp [List.count_cons, ih]
    · simp [List.count_cons, h, ih]

theorem count_pair_map_other (l : List Nat) (s t : String) (hst : s ≠ t) (i : Nat) :
    (l.map (fun j => (j, s))).count (i, t) = 0 := by
  apply List.count_eq_zero_of_not_mem
  intro hmem
  rcases List.mem_map.mp hmem with ⟨j, _, hj⟩
  exact hst (congrArg Prod.snd hj)

theorem count_nodup (l : List Nat) (hnd : l.Nodup) (i : Nat) :
    l.count i = if i ∈ l then 1 else 0 := by
  by_cases h : i ∈ l
  · simp [h, List.count_eq_one_of_mem hnd h]
  · simp [h, List.count_eq_zero_of_not_mem h]

theorem count_filter_pair (x : List (Nat × String)) (E : List Nat) (p : Nat × String) :
    ((sortPairs x).filter (fun q => decide (q.1 ∉ E))).count p
      = if p.1 ∉ E then x.count p else 0 := by
  by_cases h : p.1 ∈ E
  · simp only [h, not_true_eq_false, if_false]
    rw [List.count_eq_zero]
    intro hmem
    have := (List.mem_filter.mp hmem).2
    simp [h] at this
  · simp only [h, not_false_eq_true, if_true]
    rw [List.count_filter (by simpa using h)]
    simp only [List.count]
    exact (sortPairs_perm x).countP_eq _

/-- C2: for every `any`-prefixed side selector and duplicate-free
enumerations, every non-excluded id of the left enumeration contributes
exactly one row with the first derived label and every non-excluded id of
the right enumeration exactly one row with the second derived label (so an
id in both enumerations appears twice, an id in only one appears once);
the labels derived from the suffix are `(left, right)` for no suffix,
`(left, mirrored-right)` for `-left`, `(mirrored-left, right)` for
`-right`; and Example 2 of the spec holds. -/
theorem c2_any_resolution (side : String) (ha : strStarts side "any" = true)
    (eL eR : List Nat) (hL : eL.Nodup) (hR : eR.Nodup)
    (excl : Option (List Nat)) (dflt : List Nat) :
    ∃ l, id_helper side (fun s => Except.ok (if s = "left" then eL else eR)) excl dflt
        = Except.ok l ∧
      (∀ i, l.count (i, (sidesFor side).1)
          = if i ∈ eL ∧ i ∉ excl.getD dflt then 1 else 0) ∧
      (∀ i, l.count (i, (sidesFor side).2)
          = if i ∈ eR ∧ i ∉ excl.getD dflt then 1 else 0) ∧
      (∀ p ∈ l, (p.2 = (sidesFor side).1 ∧ p.1 ∈ eL) ∨
        (p.2 = (sidesFor side).2 ∧ p.1 ∈ eR)) ∧
      sidesFor "any" = ("left", "right") ∧
      sidesFor "any-left" = ("left", "mirrored-right") ∧
      sidesFor "any-right" = ("mirrored-left", "right") ∧
      id_helper "any-left" (fun s => Except.ok (if s = "left" then [1, 2] else [2, 3]))
          Option.none []
        = Except.ok [(1, "left"), (2, "left"), (2, "mirrored-right"), (3, "mirrored-right")] := by
  have hrows := idHelperRows_any side ha eL eR
  have hne := sidesFor_ne side
  have hmain : id_helper side (fun s => Except.ok (if s = "left" then eL else eR)) excl dflt
      = Except.ok ((sortPairs (eL.map (fun i => (i, (sidesFor side).1)) ++
          eR.map (fun i => (i, (sidesFor side).2)))).filter
            (fun p => decide (p.1 ∉ excl.getD dflt))) := by
    simp only [id_helper, hrows, okBind]
  refine ⟨_, hmain, ?_, ?_, ?_, by decide, by decide, by decide, by decide⟩
  · intro i
    rw [count_filter_pair]
    by_cases hi : i ∈ excl.getD dflt
    · simp [hi]
    · rw [List.count_append, count_pair_map_same, count_pair_map_other eR _ _ (Ne.symm hne),
        count_nodup eL hL]
      by_cases hiL : i ∈ eL <;> simp [hi, hiL]
  · intro i
    rw [count_filter_pair]
    by_cases hi : i ∈ excl.getD dflt
    · simp [hi]
    · rw [List.count_append, count_pair_map_same, count_pair_map_other eL _ _ hne,
        count_nodup eR hR]
      by_cases hiR : i ∈ eR <;> simp [hi, hiR]
  · intro p hp
    have hp2 := (List.mem_filter.mp hp).1
    have hp3 := (sortPairs_perm _).mem_iff.mp hp2
    rcases List.mem_append.mp hp3 with h | h
    · rcases List.mem_map.mp h with ⟨j, hj, he⟩
      subst he
      exact Or.inl ⟨rfl, hj⟩
    · rcases List.mem_map.mp h with ⟨j, hj, he⟩
      subst he
      exact Or.inr ⟨rfl, hj⟩

/-- C2 witness: Example 2 of the spec, derived from `c2_any_resolution`. -/
theorem c2_any_resolution_witness :
    id_helper "any-left" (fun s => Except.ok (if s = "left" then [1, 2] else [2, 3]))
        Option.none []
      = Except.ok [(1, "left"), (2, "left"), (2, "mirrored-right"), (3, "mirrored-right")] := by
  obtain ⟨l, h1, h2, h3, h4, h5, h6, h7, h8⟩ :=
    c2_any_resolution "any-left" (by decide) [1, 2] [2, 3] (by decide) (by decide)
      Option.none []
  exact h8

/-! C3: ordering of the resolver output -/

theorem sidesFor_le (side : String) : strLe (sidesFor side).1 (sidesFor side).2 := by
  unfold sidesFor
  split_ifs <;> decide

theorem mem_fst_flatMap_two {l : List Nat} {s1 s2 : String} {p : Nat × String}
    (h : p ∈ l.flatMap (fun i => [(i, s1), (i, s2)])) : p.1 ∈ l := by
  rcases List.mem_flatMap.mp h with ⟨i, hi, hp⟩
  simp only [List.mem_cons, List.mem_singleton, List.not_mem_nil, or_false] at hp
  rcases hp with hp | hp
  · subst hp
    exact hi
  · subst hp
    exact hi

theorem sorted_flatMap_two {l : List Nat} (hs : List.Sorted (· < ·) l) (s1 s2 : String)
    (h12 : strLe s1 s2) :
    List.Sorted pairLe (l.flatMap (fun i => [(i, s1), (i, s2)])) := by
  induction l with
  | nil => simp
  | cons x xs ih =>
    have hxs := List.sorted_cons.mp hs
    rw [List.flatMap_cons]
    apply List.sorted_cons.mpr
    refine ⟨?_, ?_⟩
    · intro b hb
      rcases List.mem_cons.mp hb with hb | hb
      · subst hb
        exact Or.inr ⟨rfl, h12⟩
      · exact Or.inl (hxs.1 _ (mem_fst_flatMap_two hb))
    · apply List.sorted_cons.mpr
      refine ⟨?_, ih hxs.2⟩
      intro b hb
      exact Or.inl (hxs.1 _ (mem_fst_flatMap_two hb))

theorem bothQualifying_sorted_lt (eL eR : List Nat) :
    List.Sorted (· < ·) (bothQualifying eL eR) :=
  List.Sorted.lt_of_le (sortNat_sorted _) (nodup_bothQualifying eL eR)

/-- C3 (counterexample): with the plain `left` selector and an enumerator
returning ids in descending order, `_id_helper` returns the rows in
enumerator order without sorting them; the claimed unconditional ascending
sort does not happen in the `left`/`right` branch. -/
theorem c3_counterexample :
    id_helper "left" (fun _ => Except.ok [2, 1]) Option.none []
        = Except.ok [(2, "left"), (1, "left")] ∧
    ¬ List.Sorted pairLe [(2, "left"), (1, "left")] := by
  exact ⟨by decide, by decide⟩

/-- C3 (amended): `both`/`any`-prefixed selectors return rows sorted
ascending by `(id, label)`; the plain `left`/`right` selectors return the
enumerated ids in enumerator order paired with the literal side (hence
sorted only when the enumerator output itself is ascending). -/
theorem c3_sorted_output (side : String) (eL eR : List Nat)
    (excl : Option (List Nat)) (dflt : List Nat) :
    ((strStarts side "both" = true ∨ strStarts side "any" = true) →
      ∃ l, id_helper side (fun s => Except.ok (if s = "left" then eL else eR)) excl dflt
          = Except.ok l ∧ List.Sorted pairLe l) ∧
    ((side = "left" ∨ side = "right") →
      ∃ l, id_helper side (fun s => Except.ok (if s = "left" then eL else eR)) excl dflt
          = Except.ok l ∧
        l = ((if side = "left" then eL else eR).map (fun i => (i, side))).filter
              (fun p => decide (p.1 ∉ excl.getD dflt)) ∧
        (List.Sorted (· ≤ ·) (if side = "left" then eL else eR) →
          List.Sorted pairLe l)) := by
  constructor
  · rintro (hb | ha)
    · have hrows := idHelperRows_both side hb eL eR
      have hmain : id_helper side (fun s => Except.ok (if s = "left" then eL else eR)) excl dflt
          = Except.ok (((bothQualifying eL eR).flatMap
              (fun i => [(i, (sidesFor side).1), (i, (sidesFor side).2)])).filter
                (fun p => decide (p.1 ∉ excl.getD dflt))) := by
        simp only [id_helper, hrows, okBind]
      refine ⟨_, hmain, ?_⟩
      exact (sorted_flatMap_two (bothQualifying_sorted_lt eL eR) _ _ (sidesFor_le side)).filter _
    · have hrows := idHelperRows_any side ha eL eR
      have hmain : id_helper side (fun s => Except.ok (if s = "left" then eL else eR)) excl dflt
          = Except.ok ((sortPairs (eL.map (fun i => (i, (sidesFor side).1)) ++
              eR.map (fun i => (i, (sidesFor side).2)))).filter
                (fun p => decide (p.1 ∉ excl.getD dflt))) := by
        simp only [id_helper, hrows, okBind]
      refine ⟨_, hmain, ?_⟩
      exact (sortPairs_sorted _).filter _
  · rintro (hl | hr)
    · subst hl
      refine ⟨_, rfl, rfl, ?_⟩
      intro hsort
      apply List.Sorted.filter
      rw [List.Sorted, List.pairwise_map]
      refine hsort.imp ?_
      intro a b hab
      rcases Nat.lt_or_eq_of_le hab with h | h
      · exact Or.inl h
      · exact Or.inr ⟨h, Or.inr rfl⟩
    · subst hr
      refine ⟨_, rfl, rfl, ?_⟩
      intro hsort
      apply List.Sorted.filter
      rw [List.Sorted, List.pairwise_map]
      refine hsort.imp ?_
      intro a b hab
      rcases Nat.lt_or_eq_of_le hab with h | h
      · exact Or.inl h
      · exact Or.inr ⟨h, Or.inr rfl⟩

/-- C3 witness: a `both` run is sorted, instantiated from `c3_sorted_output`. -/
theorem c3_sorted_output_witness :
    ∃ l, id_helper "both" (fun s => Except.ok (if s = "left" then [3, 1] else [1, 3])) Option.none []
        = Except.ok l ∧ List.Sorted pairLe l := by
  exact (c3_sorted_output "both" [3, 1] [1, 3] Option.none []).1 (Or.inl (by decide))

theorem validate_dict_eq (spec : List (PyKey × PyVal)) (allowed : List String) (key : String)
    (hwfk : key = "" ∨ ∀ v, dictGet spec key = some v → ∃ d, v = PyVal.vdict d) :
    validate_dict spec allowed key
      = if unknownAt spec key allowed = [] then Except.ok ()
        else Except.error (mkUnknownMsg (unknownAt spec key allowed) key) := by
  by_cases hk : key = ""
  · subst hk
    simp [validate_dict, unknownAt, checkKeys]
  · have hwf2 : ∀ v, dictGet spec key = some v → ∃ d, v = PyVal.vdict d := by
      rcases hwfk with h | h
      · exact absurd h hk
      · exact h
    cases hdg : dictGet spec key with
    | none => simp [validate_dict, unknownAt, hk, hdg]
    | some v =>
      rcases hwf2 v hdg with ⟨d, rfl⟩
      simp [validate_dict, unknownAt, hk, hdg, checkKeys]

theorem goChecks_ok_iff (spec : List (PyKey × PyVal)) (cs : List (String × List String)) :
    goChecks spec cs = Except.ok () ↔
      ∀ c ∈ cs, validate_dict spec c.2 c.1 = Except.ok () := by
  induction cs with
  | nil => simp [goChecks]
  | cons c rest ih =>
    cases hvd : validate_dict spec c.2 c.1 with
    | ok u =>
      cases u
      simp [goChecks, hvd, ih, List.forall_mem_cons]
    | error m =>
      simp [goChecks, hvd, List.forall_mem_cons]

theorem goChecks_error (spec : List (PyKey × PyVal)) (cs : List (String × List String))
    (m : String) (h : goChecks spec cs = Except.error m) :
    ∃ c ∈ cs, validate_dict spec c.2 c.1 = Except.error m := by
  induction cs with
  | nil => simp [goChecks] at h
  | cons c rest ih =>
    cases hvd : validate_dict spec c.2 c.1 with
    | ok u =>
      cases u
      rw [show goChecks spec (c :: rest) = (validate_dict spec c.2 c.1 >>= fun _ =>
        goChecks spec rest) from rfl, hvd, okBind] at h
      rcases ih h with ⟨c2, hc2, he⟩
      exact ⟨c2, List.mem_cons_of_mem _ hc2, he⟩
    | error m2 =>
      rw [show goChecks spec (c :: rest) = (validate_dict spec c.2 c.1 >>= fun _ =>
        goChecks spec rest) from rfl, hvd, errBind] at h
      injection h with h2
      exact ⟨c, List.mem_cons_self _ _, h2 ▸ hvd⟩

theorem unknownKeysOf_num_cons (keys : List PyKey) (allowed : List String) (n : Int) :
    unknownKeysOf (PyKey.knum n :: keys) allowed = unknownKeysOf keys allowed := by
  unfold unknownKeysOf
  by_cases h : PyKey.knum n ∈ keys
  · rw [List.dedup_cons_of_mem h]
  · rw [List.dedup_cons_of_not_mem h]
    simp [List.filterMap_cons]

theorem chkList_wf (ak : List String) (spec : List (PyKey × PyVal)) (hwf : blocksWF spec) :
    ∀ c ∈ chkList ak, validate_dict spec c.2 c.1
      = if unknownAt spec c.1 c.2 = [] then Except.ok ()
        else Except.error (mkUnknownMsg (unknownAt spec c.1 c.2) c.1) := by
  intro c hc
  apply validate_dict_eq
  simp only [chkList, List.mem_cons, List.not_mem_nil, or_false] at hc
  rcases hc with rfl | rfl | rfl | rfl | rfl | rfl | rfl
  · exact Or.inl rfl
  · exact Or.inr (hwf "hrirs" (by decide))
  · exact Or.inr (hwf "subject" (by decide))
  · exact Or.inr (hwf "side" (by decide))
  · exact Or.inr (hwf "collection" (by decide))
  · exact Or.inr (hwf "image" (by decide))
  · exact Or.inr (hwf "anthropometry" (by decide))

/-- C5 (amended): for any adapter root allowed-key list `ak` and any
well-formed specification, `validate_specification` raises iff the root
(against `ak`, which is the base `{subject, side, collection}` plus the
modality keys enabled at construction) or one of the six fixed blocks
contains a non-numeric key outside its allowed set; the raised message is
built from all sorted offending keys of the failing location together with
that location's name; numeric keys never contribute; and Example 4 of the
spec holds. -/
theorem c5_validator (ak : List String) (spec : List (PyKey × PyVal)) (hwf : blocksWF spec) :
    ((∃ m, validate_specification ak spec = Except.error m) ↔
      ∃ c ∈ chkList ak, unknownAt spec c.1 c.2 ≠ []) ∧
    (∀ m, validate_specification ak spec = Except.error m →
      ∃ c ∈ chkList ak, unknownAt spec c.1 c.2 ≠ [] ∧
        m = mkUnknownMsg (unknownAt spec c.1 c.2) c.1) ∧
    (∀ (keys : List PyKey) (allowed : List String) (n : Int),
      unknownKeysOf (PyKey.knum n :: keys) allowed = unknownKeysOf keys allowed) ∧
    validate_specification ["subject", "side", "collection", "hrirs"]
        [(PyKey.kstr "hrirs", PyVal.vdict [(PyKey.kstr "foo", PyLeaf.vother)])]
      = Except.error "Unknown specifier \"foo\" in hrirs" := by
  have hvd := chkList_wf ak spec hwf
  refine ⟨?_, ?_, unknownKeysOf_num_cons, by decide⟩
  · constructor
    · rintro ⟨m, hm⟩
      rcases goChecks_error spec (chkList ak) m hm with ⟨c, hc, he⟩
      refine ⟨c, hc, ?_⟩
      intro hemp
      rw [hvd c hc, if_pos hemp] at he
      exact Except.noConfusion he
    · rintro ⟨c, hc, hne⟩
      cases hval : validate_specification ak spec with
      | error m => exact ⟨m, rfl⟩
      | ok u =>
        cases u
        have := (goChecks_ok_iff spec (chkList ak)).mp hval c hc
        rw [hvd c hc, if_neg hne] at this
        exact Except.noConfusion this
  · intro m hm
    rcases goChecks_error spec (chkList ak) m hm with ⟨c, hc, he⟩
    rw [hvd c hc] at he
    by_cases hemp : unknownAt spec c.1 c.2 = []
    · rw [if_pos hemp] at he
      exact Except.noConfusion he
    · rw [if_neg hemp] at he
      injection he with h2
      exact ⟨c, hc, hemp, h2.symm⟩

/-- C5 witness: a base adapter (root keys `{subject, side, collection}`)
rejects the unknown root key `bogus`; instantiated from `c5_validator`. -/
theorem c5_validator_witness :
    ∃ m, validate_specification ["subject", "side", "collection"]
        [(PyKey.kstr "bogus", PyVal.leaf PyLeaf.vother)] = Except.error m := by
  have h := c5_validator ["subject", "side", "collection"]
    [(PyKey.kstr "bogus", PyVal.leaf PyLeaf.vother)]
    (by
      intro k hk v hv
      have hnone : dictGet [(PyKey.kstr "bogus", PyVal.leaf PyLeaf.vother)] k
          = Option.none := by
        fin_cases hk <;> decide
      rw [hnone] at hv
      exact Option.noConfusion hv)
  apply h.1.mpr
  refine ⟨("", ["subject", "side", "collection"]), by simp [chkList], by decide⟩

/-- C5 (counterexample): for an adapter constructed with no modality
backing (root allowed keys only `{subject, side, collection}`), a root
`hrirs` key raises even though it belongs to the spec's claimed fixed root
set, so the claimed adapter-independent iff is false. -/
theorem c5_counterexample :
    validate_specification ["subject", "side", "collection"]
        [(PyKey.kstr "hrirs", PyVal.vdict [])]
      = Except.error "Unknown specifier \"hrirs\" in specification" ∧
    "hrirs" ∈ specFixedRootKeys := by
  exact ⟨by decide, by decide⟩

/-! C8: anthropometry missing-data masking -/

theorem filterMap_zip_sublist (ids : List Nat) (ms : List (List Bool))
    (P : List Bool → Bool) :
    ((ids.zip ms).filterMap
      (fun q => if P q.2 then some q.1 else Option.none)).Sublist ids := by
  induction ids generalizing ms with
  | nil => simp
  | cons x xs ih =>
    cases ms with
    | nil => simp
    | cons m mrest =>
      rw [List.zip_cons_cons, List.filterMap_cons]
      by_cases h : P m
      · simp only [h, if_true]
        exact (ih mrest).cons₂ x
      · simp only [h, if_false]
        exact (ih mrest).cons x

theorem mem_filterMap_zip (ids : List Nat) (ms : List (List Bool)) (P : List Bool → Bool)
    (hnd : ids.Nodup) (hlen : ms.length = ids.length) (j : Nat) (hj : j < ids.length) :
    (ids[j] ∈ (ids.zip ms).filterMap (fun q => if P q.2 then some q.1 else Option.none))
      ↔ P (ms.getD j []) = true := by
  induction ids generalizing ms j with
  | nil => simp at hj
  | cons x xs ih =>
    cases ms with
    | nil => simp at hlen
    | cons m mrest =>
      have hlen2 : mrest.length = xs.length := by simpa using hlen
      cases j with
      | zero =>
        simp only [List.getElem_cons_zero, List.getD_cons_zero]
        rw [List.zip_cons_cons, List.filterMap_cons]
        by_cases h : P m
        · simp [h]
        · simp only [h, if_false]
          constructor
          · intro hmem
            exact absurd ((filterMap_zip_sublist xs mrest P).subset hmem)
              (List.nodup_cons.mp hnd).1
          · intro hP
            exact absurd hP (by simp [h])
      | succ k =>
        have hk : k < xs.length := by simpa using hj
        simp only [List.getElem_cons_succ, List.getD_cons_succ]
        rw [List.zip_cons_cons, List.filterMap_cons]
        have hmemx : xs[k] ∈ xs := List.getElem_mem hk
        have hne : ¬(xs[k] = x) := by
          intro he
          exact (List.nodup_cons.mp hnd).1 (he ▸ hmemx)
        by_cases h : P m
        · simp only [h, if_true, List.mem_cons]
          rw [ih mrest (List.nodup_cons.mp hnd).2 hlen2 k hk]
          simp [hne]
        · simp only [h, if_false]
          exact ih mrest (List.nodup_cons.mp hnd).2 hlen2 k hk

theorem zip_map_filterMap (ids : List Nat) (rows : List (List Bool))
    (pol : List Bool → Bool) :
    (ids.zip (rows.map pol)).filterMap (fun q => if q.2 then some q.1 else Option.none)
      = (ids.zip rows).filterMap (fun q => if pol q.2 then some q.1 else Option.none) := by
  induction ids generalizing rows with
  | nil => simp
  | cons x xs ih =>
    cases rows with
    | nil => simp
    | cons m mrest =>
      rw [List.map_cons, List.zip_cons_cons, List.zip_cons_cons,
        List.filterMap_cons, List.filterMap_cons]
      by_cases h : pol m
      · simp only [h, if_true, ih]
      · simp only [h, if_false, ih]

/-- C8: for a loaded anthropometry store, a valid side and a valid group
selection (any successfully computed presence matrix whose row count
matches the raw id list), with `partial=false` a subject's row is kept iff
no selected column is missing, with `partial=true` iff at least one
selected column is present, and the returned ids are the subset of the
collection's raw subject ids whose row is valid, in raw order. -/
theorem c8_anthropometry_mask (ad : Adapter) (side : String) (select : Option SelectArg)
    (partialFlag : Bool) (rows : List (List Bool))
    (hv : anthropometry_values ad side select = Except.ok rows)
    (hlen : rows.length = ad.anthropometric_ids.length)
    (hnd : ad.anthropometric_ids.Nodup) :
    ∃ r, all_anthropometry_ids ad side select partialFlag = Except.ok r ∧
      r.Sublist ad.anthropometric_ids ∧
      r = (ad.anthropometric_ids.zip rows).filterMap (fun q =>
        if (if partialFlag then q.2.any (fun c => c) else q.2.all (fun c => c))
          then some q.1 else Option.none) ∧
      (∀ j, (hj : j < ad.anthropometric_ids.length) →
        (ad.anthropometric_ids[j] ∈ r ↔
          (if partialFlag then ∃ c ∈ rows.getD j [], c = true
            else ∀ c ∈ rows.getD j [], c = true))) := by
  have hlen2 : ad.anthropometric_ids.length = (rows.map (fun row =>
      if partialFlag then row.any (fun c => c) else row.all (fun c => c))).length := by
    simp [hlen]
  have hres : all_anthropometry_ids ad side select partialFlag
      = Except.ok ((ad.anthropometric_ids.zip (rows.map (fun row =>
          if partialFlag then row.any (fun c => c) else row.all (fun c => c)))).filterMap
            (fun q => if q.2 then some q.1 else Option.none)) := by
    simp only [all_anthropometry_ids, hv, okBind, maskSelect]
    rw [if_pos hlen2]
  rw [zip_map_filterMap] at hres
  refine ⟨_, hres, ?_, rfl, ?_⟩
  · exact filterMap_zip_sublist ad.anthropometric_ids rows
      (fun row => if partialFlag then row.any (fun c => c) else row.all (fun c => c))
  · intro j hj
    have hiff := mem_filterMap_zip ad.anthropometric_ids rows
      (fun row => if partialFlag then row.any (fun c => c) else row.all (fun c => c))
      hnd (by simp [hlen]) j hj
    refine hiff.trans ?_
    by_cases hp : partialFlag
    · simp [hp, List.any_eq_true]
    · simp [hp, List.all_eq_true]

/-- C8 witness: with `partial=false` only subject 1 (complete row) is kept;
instantiated from `c8_anthropometry_mask`. -/
theorem c8_anthropometry_mask_witness :
    all_anthropometry_ids anthAd "left" Option.none false = Except.ok [1] := by
  obtain ⟨r, h1, h2, h3, h4⟩ := c8_anthropometry_mask anthAd "left" Option.none false
    [[true], [false]] (by decide) (by decide) (by decide)
  rw [h1, h3]
  decide

/-! The inclusion policy in isolation -/

theorem applyInclude_none (rng : Nat) (l : List (Nat × String)) :
    applyInclude rng l Option.none = Except.ok l := rfl

theorem applyInclude_first (rng : Nat) (l : List (Nat × String)) :
    applyInclude rng l (some IncMode.first) = Except.ok (l.take 1) := by
  simp only [applyInclude]
  by_cases h : 0 < l.length
  · rw [if_pos (by simp [h])]
  · rw [if_neg (by simp [h]), if_neg (by simp), if_neg (by simp)]
    have hl : l = [] := List.eq_nil_of_length_eq_zero (by omega)
    subst hl
    rfl

theorem applyInclude_last (rng : Nat) (l : List (Nat × String)) :
    applyInclude rng l (some IncMode.last) = Except.ok (l.drop (l.length - 1)) := by
  simp only [applyInclude]
  by_cases h : 0 < l.length
  · rw [if_neg (by simp), if_pos (by simp [h])]
  · rw [if_neg (by simp [h]), if_neg (by simp [h]), if_neg (by simp)]
    have hl : l = [] := List.eq_nil_of_length_eq_zero (by omega)
    subst hl
    rfl

theorem applyInclude_coll (rng : Nat) (l : List (Nat × String)) (c : List Nat) :
    applyInclude rng l (some (IncMode.coll c))
      = Except.ok (l.filter (fun p => decide (p.1 ∈ c))) := by
  simp only [applyInclude]
  rw [if_neg (by simp), if_neg (by simp), if_neg (by simp)]

/-! C6, C9, C10: the resolver pipeline -/

/-- C6: the inclusion policy of `specification_based_ids`: `None` returns
the full sorted intersected list; `"first"`/`"last"` return a one-element
list holding the smallest/largest pair, or the empty list when the
intersection is empty; an explicit id collection filters the sorted list
preserving order; and an explicit empty collection returns empty
immediately without evaluating any modality (the result is the same for
every adapter sharing the same root allowed-key list). -/
theorem c6_include_policy (ad : Adapter) (spec : List (PyKey × PyVal))
    (excl : Option (List Nat)) (rng rng2 : Nat) (ids : List (Nat × String))
    (h : specification_based_ids ad spec Option.none excl rng = Except.ok ids) :
    List.Sorted pairLe ids ∧
    specification_based_ids ad spec (some IncMode.first) excl rng2
      = Except.ok (ids.take 1) ∧
    specification_based_ids ad spec (some IncMode.last) excl rng2
      = Except.ok (ids.drop (ids.length - 1)) ∧
    (∀ c, specification_based_ids ad spec (some (IncMode.coll c)) excl rng2
      = Except.ok (ids.filter (fun p => decide (p.1 ∈ c)))) ∧
    (∀ ad2 : Adapter, ad2.allowed_keys = ad.allowed_keys →
      specification_based_ids ad2 spec (some (IncMode.coll [])) excl rng2
        = Except.ok []) := by
  simp only [specification_based_ids, lenZeroInclude] at h
  rcases bind_ok_inv h with ⟨u, hval, h2⟩
  cases u
  rw [if_neg (by simp)] at h2
  rcases bind_ok_inv h2 with ⟨sep, hsep, h3⟩
  rcases bind_ok_inv h3 with ⟨inter, hinter, h4⟩
  rw [applyInclude_none] at h4
  injection h4 with hids
  subst hids
  refine ⟨sortPairs_sorted inter, ?_, ?_, ?_, ?_⟩
  · simp only [specification_based_ids, lenZeroInclude, hval, okBind]
    rw [if_neg (by simp), hsep, okBind, hinter, okBind, applyInclude_first]
  · simp only [specification_based_ids, lenZeroInclude, hval, okBind]
    rw [if_neg (by simp), hsep, okBind, hinter, okBind, applyInclude_last]
  · intro c
    simp only [specification_based_ids, lenZeroInclude, hval, okBind]
    cases c with
    | nil =>
      rw [if_pos (by simp [lenZeroInclude])]
      congr 1
      apply (List.filter_eq_nil_iff.mpr ?_).symm
      intro p _
      simp
    | cons a l =>
      rw [if_neg (by simp [lenZeroInclude]), hsep, okBind, hinter, okBind, applyInclude_coll]
  · intro ad2 hak
    simp only [specification_based_ids, hak, hval, okBind, lenZeroInclude]
    rw [if_pos (by simp)]

/-- C6 witness: Example 3 flavour on a concrete adapter; instantiated from
`c6_include_policy`. -/
theorem c6_include_policy_witness :
    specification_based_ids smallAd spec6 (some IncMode.first) Option.none 0
      = Except.ok [(1, "left")] := by
  obtain ⟨hs, hfirst, hlast, hcoll, hempty⟩ :=
    c6_include_policy smallAd spec6 Option.none 0 0 [(1, "left"), (2, "left")] (by decide)
  exact hfirst

/-- C9 (counterexample): `spec9` is malformed (its `hrirs` block carries
the unknown side token `"up"`, as the benign run's error shows), yet the
image enumerator is invoked first: with an image enumerator that reports
its invocation, that report — not the unknown-side error — is the
resolution outcome, so resolution does not fail before every collaborator
call. -/
theorem c9_counterexample :
    specification_based_ids trapAd spec9 Option.none Option.none 0
      = Except.error "image collaborator invoked" ∧
    trapAd.allowed_keys = benignAd.allowed_keys ∧
    specification_based_ids benignAd spec9 Option.none Option.none 0
      = Except.error "Unknown side \"up\"" := by
  exact ⟨by decide, by decide, by decide⟩

/-- C9 (amended): an unknown key anywhere in the specification fails fast
during validation, before any collaborator can influence the result (the
outcome is the validation error for every adapter); but an unknown side
selector token or anthropometry group name in a block is only detected
when that block's modality is evaluated, after the modalities earlier in
the fixed `image`, `anthropometry`, `hrirs` order have already invoked
their enumerators, as the `spec9` runs show. -/
theorem c9_failfast (ad : Adapter) (spec : List (PyKey × PyVal)) (inc : Option IncMode)
    (excl : Option (List Nat)) (rng : Nat) (m : String)
    (h : validate_specification ad.allowed_keys spec = Except.error m) :
    specification_based_ids ad spec inc excl rng = Except.error m ∧
    specification_based_ids trapAd spec9 Option.none Option.none 0
      = Except.error "image collaborator invoked" ∧
    specification_based_ids benignAd spec9 Option.none Option.none 0
      = Except.error "Unknown side \"up\"" := by
  refine ⟨?_, by decide, by decide⟩
  simp only [specification_based_ids, h, errBind]

/-- C9 witness: a spec with the unknown root key `bogus` yields the
validation error for a trap adapter too; instantiated from `c9_failfast`. -/
theorem c9_failfast_witness :
    specification_based_ids trapAd [(PyKey.kstr "bogus", PyVal.leaf PyLeaf.vother)]
        Option.none Option.none 0
      = Except.error "Unknown specifier \"bogus\" in specification" := by
  exact (c9_failfast trapAd [(PyKey.kstr "bogus", PyVal.leaf PyLeaf.vother)]
    Option.none Option.none 0 "Unknown specifier \"bogus\" in specification" (by decide)).1

/-- C10: a specification that validates but contains none of the
image/anthropometry/hrirs blocks makes resolution raise (the attempted
intersection of zero per-modality sets) for `include_subjects` `None` or
any non-empty value, rather than returning a result. -/
theorem c10_empty_intersection (ad : Adapter) (spec : List (PyKey × PyVal))
    (inc : Option IncMode) (excl : Option (List Nat)) (rng : Nat)
    (hv : validate_specification ad.allowed_keys spec = Except.ok ())
    (h1 : dictGet spec "image" = Option.none)
    (h2 : dictGet spec "anthropometry" = Option.none)
    (h3 : dictGet spec "hrirs" = Option.none)
    (hinc : inc ≠ some (IncMode.coll [])) :
    specification_based_ids ad spec inc excl rng
      = Except.error "TypeError: set.intersection needs at least one set" := by
  have hlz : lenZeroInclude inc = false := by
    cases inc with
    | none => rfl
    | some m =>
      cases m with
      | first => rfl
      | last => rfl
      | random => rfl
      | coll c =>
        cases c with
        | nil => exact absurd rfl hinc
        | cons a l => rfl
  have hcs : collectSeparate ad spec (defaultSideOf spec) excl = Except.ok [] := by
    simp only [collectSeparate, hasKey, h1, h2, h3, Option.isSome_none, Bool.false_eq_true,
      if_false, okBind]
    rfl
  simp only [specification_based_ids, hv, okBind, hlz, Bool.false_eq_true, if_false,
    hcs, okBind, intersectAll, errBind]

/-- C10 witness: the empty specification on a concrete adapter;
instantiated from `c10_empty_intersection`. -/
theorem c10_empty_intersection_witness :
    specification_based_ids benignAd [] Option.none Option.none 0
      = Except.error "TypeError: set.intersection needs at least one set" := by
  exact c10_empty_intersection benignAd [] Option.none Option.none 0 (by decide)
    (by decide) (by decide) (by decide) (by decide)
/-- C4 witness: the unknown selector `"up"` makes `_id_helper` raise;
instantiated from `c4_unknown_side`. -/
theorem c4_unknown_side_witness :
    ∃ m, id_helper "up" (fun s => Except.ok ((fun _ => []) s)) Option.none []
      = Except.error m := by
  exact (c4_unknown_side "up" (fun _ => []) Option.none []).1.mpr
    ⟨by decide, by decide, by decide, by decide⟩
